import Mathlib

/-!
Verification development for the comet orbit backend
(`backend/app/orbit.py`, `backend/app/orbit_calc.py` and the `/compute`
endpoint of `backend/app/main.py`).

Shallow embedding conventions:
* UTC datetimes are rational numbers of seconds from a fixed origin (`ℚ`);
  datetime subtraction and comparison in the source become `ℚ` operations.
* Angles, positions (km) and velocities (km/s) are real numbers.
* The astropy ephemeris call `get_body_barycentric_posvel("earth", t)` is an
  abstract parameter `Env` (a pure function of time, per the collaborator
  contract).
* poliastro's `orbit.propagate(...)` is an abstract parameter `PropFun`:
  for an offset and an attempt kind it either yields a propagated
  (position, velocity) pair or `none` (modelling a raised exception).
* Python exceptions raised by the repository's own code become
  `Except OrbitError`.
-/

namespace CometOrbit

/-- 3-vector of reals (km or km/s). -/
structure Vec3 where
  x : ℝ
  y : ℝ
  z : ℝ

def vadd (a b : Vec3) : Vec3 := ⟨a.x + b.x, a.y + b.y, a.z + b.z⟩

def vsub (a b : Vec3) : Vec3 := ⟨a.x - b.x, a.y - b.y, a.z - b.z⟩

def smul (c : ℝ) (v : Vec3) : Vec3 := ⟨c * v.x, c * v.y, c * v.z⟩

def dot3 (a b : Vec3) : ℝ := a.x * b.x + a.y * b.y + a.z * b.z

def cross3 (a b : Vec3) : Vec3 :=
  ⟨a.y * b.z - a.z * b.y, a.z * b.x - a.x * b.z, a.x * b.y - a.y * b.x⟩

/-- Euclidean norm, `np.linalg.norm`. -/
noncomputable def norm3 (v : Vec3) : ℝ := Real.sqrt (dot3 v v)

/-- `models.Observation` (the fields the core reads: id, RA hours,
Dec degrees, UTC timestamp).  The angles are rationals — the API accepts
finite decimal numbers — cast to reals where trigonometry needs them. -/
structure Observation where
  id : ℕ
  ra_hours : ℚ
  dec_degrees : ℚ
  observation_time : ℚ
  deriving DecidableEq

/-- Abstract ephemeris provider: Earth's barycentric position and velocity as
pure functions of time (`get_body_barycentric_posvel`). -/
structure Env where
  earthPos : ℝ → Vec3
  earthVel : ℝ → Vec3

/-- Error taxonomy of the spec; the source raises `ValueError` /
`RuntimeError`, mapped to the corresponding taxonomy members. -/
inductive OrbitError
  | insufficientData
  | invalidAngle
  | degenerateFit
  | propagationExhausted
  deriving DecidableEq

/-- Astropy's astronomical unit in km (used by `sky.cartesian.xyz.to(u.km)`). -/
noncomputable def AU_KM : ℝ := 149597870.7

/-- The cartesian conversion step of
`orbit._observation_to_heliocentric_vector`: SkyCoord with RA in hourangle
(15 degrees per hour) and Dec in degrees, converted to a cartesian km
vector of length `distance_au`, plus Earth's position at the observation's
time.  astropy's cartesian conversion is (cos δ cos α, cos δ sin α, sin δ)
scaled by the distance; the trigonometric functions are periodic, so an RA
outside [0, 24) gives the same direction astropy's wrapped Longitude
gives. -/
noncomputable def heliocentric_conversion (env : Env) (obs : Observation)
    (distance_au : ℝ) : Vec3 × ℚ :=
  let ra := (obs.ra_hours : ℝ) * (Real.pi / 12)
  let dec := (obs.dec_degrees : ℝ) * (Real.pi / 180)
  let comet_vec := smul (distance_au * AU_KM)
    ⟨Real.cos dec * Real.cos ra, Real.cos dec * Real.sin ra, Real.sin dec⟩
  let earth_vec := env.earthPos (obs.observation_time : ℝ)
  (vadd earth_vec comet_vec, obs.observation_time)

/-- Embedding of `orbit._observation_to_heliocentric_vector`.  The SkyCoord
construction validates the declination: astropy's Latitude raises
ValueError for a declination outside [-90, 90] (mapped to the taxonomy's
invalidAngle), while the right ascension is a Longitude and is wrapped,
never rejected.  On an in-range declination the conversion runs. -/
noncomputable def observation_to_heliocentric_vector (env : Env) (obs : Observation)
    (distance_au : ℝ) : Except OrbitError (Vec3 × ℚ) :=
  if obs.dec_degrees < -90 ∨ 90 < obs.dec_degrees then .error .invalidAngle
  else .ok (heliocentric_conversion env obs distance_au)

/-- Python's `sorted(observations, key=lambda o: o.observation_time)`. -/
def sortObs (l : List Observation) : List Observation :=
  List.insertionSort (fun a b => a.observation_time ≤ b.observation_time) l

/-- np.polyfit of degree 1.  numpy scales each Vandermonde column by its
Euclidean norm before calling lstsq; the first column holds the abscissae,
so its norm is sqrt of the sum of their squares.  When that sum is zero
(every abscissa zero — on this code path the abscissae are offsets from
the first sorted timestamp, so exactly the all-identical-timestamps case)
the scaling divides by zero, lstsq receives NaNs and raises LinAlgError:
modelled as `none`.  Otherwise the abscissae include 0 and a nonzero
value, the column pair is full rank, and the least-squares line is the
closed form below. -/
noncomputable def polyfit1 (ts : List ℚ) (ys : List ℝ) : Option (ℝ × ℝ) :=
  if (ts.map (fun t => t * t)).sum = 0 then none
  else
    let n : ℝ := ts.length
    let st : ℝ := (ts.map (fun (t : ℚ) => (t : ℝ))).sum
    let sy : ℝ := ys.sum
    let sty : ℝ := (List.zipWith (fun (t : ℚ) (y : ℝ) => (t : ℝ) * y) ts ys).sum
    let stt : ℝ := (ts.map (fun (t : ℚ) => ((t : ℝ)) ^ 2)).sum
    let slope := (n * sty - st * sy) / (n * stt - st ^ 2)
    let intercept := (sy - slope * st) / n
    some (slope, intercept)

/-- np.polyval for a degree-1 coefficient pair (slope, intercept). -/
noncomputable def polyval1 (c : ℝ × ℝ) (t : ℚ) : ℝ := c.1 * (t : ℝ) + c.2

/-- The dynamical state `poliastro.twobody.Orbit` carries: position,
velocity, epoch and the central body's gravitational parameter. -/
structure StateVector where
  pos : Vec3
  vel : Vec3
  epoch : ℚ
  mu : ℝ

/-- Sun's gravitational parameter in km^3/s^2 (`poliastro.bodies.Sun`,
also `SUN_MU` in orbit_calc.py). -/
noncomputable def SUN_MU : ℝ := 1.32712440018e11

/-- The `times` list of `derive_orbit`: the builder returns each
observation's own timestamp, so the collected times are the (sorted)
observation times. -/
def obsTimes (obs_list : List Observation) : List ℚ :=
  obs_list.map (fun o => o.observation_time)

/-- The `time_seconds` array of `derive_orbit`: elapsed time since the
first observation. -/
def timeSeconds (obs_list : List Observation) : List ℚ :=
  (obsTimes obs_list).map (fun t => t - (obsTimes obs_list).headD 0)

/-- The `for idx, obs in enumerate(obs_list)` loop of `derive_orbit`:
convert each observation at the assumed distance 0.8 + 0.02·idx AU,
propagating the first builder failure (the loop body raises out of the
function). -/
noncomputable def buildVectors (env : Env) (idx : ℕ) :
    List Observation → Except OrbitError (List Vec3)
  | [] => .ok []
  | o :: rest =>
    match observation_to_heliocentric_vector env o (0.8 + 0.02 * (idx : ℝ)) with
    | .error e => .error e
    | .ok rv =>
      match buildVectors env (idx + 1) rest with
      | .error e => .error e
      | .ok vs => .ok (rv.1 :: vs)

/-- Embedding of `orbit.derive_orbit`: sort by time, require at least 3
observations, build assumed heliocentric positions with the 0.8 + 0.02·i AU
distance ramp (any astropy declination failure propagates), fit each axis
linearly against seconds since the first observation (np.polyfit's
LinAlgError on the degenerate all-identical-timestamps system propagates
as the taxonomy's degenerateFit), and evaluate the fit at the timestamp of
index `len // 2`.  The source indexes `time_seconds[mid_idx]` directly;
`getD` is in range because the length check guarantees
`mid_idx < length`. -/
noncomputable def derive_orbit (env : Env) (observations : List Observation) :
    Except OrbitError StateVector :=
  let obs_list := sortObs observations
  if obs_list.length < 3 then .error .insufficientData
  else
    match buildVectors env 0 obs_list with
    | .error e => .error e
    | .ok vectors =>
      let times := obsTimes obs_list
      let time_seconds := timeSeconds obs_list
      match polyfit1 time_seconds (vectors.map Vec3.x),
          polyfit1 time_seconds (vectors.map Vec3.y),
          polyfit1 time_seconds (vectors.map Vec3.z) with
      | some cx, some cy, some cz =>
        let mid_idx := obs_list.length / 2
        let t_mid := time_seconds.getD mid_idx 0
        let position : Vec3 := ⟨polyval1 cx t_mid, polyval1 cy t_mid, polyval1 cz t_mid⟩
        let velocity : Vec3 := ⟨cx.1, cy.1, cz.1⟩
        let epoch := times.getD mid_idx 0
        .ok ⟨position, velocity, epoch, SUN_MU⟩
      | _, _, _ => .error .degenerateFit

/-- The kind of a single call to poliastro's `orbit.propagate`:
the default call, a call with an explicit `rtol`, or a call with
`method="cowell"`. -/
inductive PropAttempt
  | default
  | rtol (r : ℝ)
  | cowell

/-- Abstract model of `orbit.propagate` for a fixed orbit: given the
offset index (in days, the sampled offsets are the integers 0..days) and
the attempt kind, either the propagated (position km, velocity km/s) or
`none` for a raised exception.  Each attempt is independent and stateless. -/
def PropFun : Type := ℕ → PropAttempt → Option (Vec3 × Vec3)

/-- The ordered rtol retry list of `find_closest_approach`. -/
noncomputable def rtolList : List ℝ := [1e-6, 1e-5, 1e-4]

/-- The `for rtol in (1e-6, 1e-5, 1e-4)` retry loop: try each in order,
stopping at the first success. -/
def tryRtols (p : PropFun) (i : ℕ) : List ℝ → Option (Vec3 × Vec3)
  | [] => none
  | r :: rs =>
    match p i (.rtol r) with
    | some s => some s
    | none => tryRtols p i rs

/-- The full per-offset attempt ladder of `find_closest_approach`
(orbit.py lines 82-101).  Note the source's control flow: on failure of
the default attempt it runs the rtol retry loop, and then runs the cowell
loop UNCONDITIONALLY — the cowell attempt is not guarded by
`if propagated is None`, so a successful cowell call overwrites a
successful rtol retry, while a failing cowell call leaves the rtol
result in place. -/
noncomputable def propagateLadder (p : PropFun) (i : ℕ) : Option (Vec3 × Vec3) :=
  match p i .default with
  | some s => some s
  | none =>
    let afterRtol := tryRtols p i rtolList
    match p i .cowell with
    | some s => some s
    | none => afterRtol

/-- The spec's version of the ladder (spec 4.4): the Cowell attempt is made
only on continued failure of all tolerance retries.  Stated from the spec's
words, to be compared with `propagateLadder` from the source. -/
noncomputable def propagateLadderSpec (p : PropFun) (i : ℕ) : Option (Vec3 × Vec3) :=
  match p i .default with
  | some s => some s
  | none =>
    match tryRtols p i rtolList with
    | some s => some s
    | none => p i .cowell

/-- Result record of `find_closest_approach`: (datetime, distance km,
relative speed km/s). -/
structure CAResult where
  time : ℚ
  distance : ℝ
  relSpeed : ℝ

/-- One day in seconds, for `start_time + offset` with day offsets. -/
def daySeconds : ℚ := 86400

/-- The per-offset evaluation of the search loop body, packaged: if the
ladder succeeds at offset `i`, the (distance to Earth, absolute time,
relative speed) sample for that offset, else `none`. -/
noncomputable def sampleData (env : Env) (p : PropFun) (epoch : ℚ) (i : ℕ) :
    Option (ℝ × ℚ × ℝ) :=
  match propagateLadder p i with
  | none => none
  | some (r, v) =>
    let current : ℚ := epoch + (i : ℚ) * daySeconds
    let earth_r := env.earthPos (current : ℝ)
    let earth_v := env.earthVel (current : ℝ)
    some (norm3 (vsub r earth_r), current, norm3 (vsub v earth_v))

/-- One iteration of the running-minimum loop of `find_closest_approach`:
the accumulator is (min_distance as `Option ℝ` — `none` is the initial
`float("inf")` —, min_time, rel_speed); the source updates all three only
on a STRICT decrease of the distance. -/
noncomputable def caStep (env : Env) (p : PropFun) (epoch : ℚ)
    (acc : Option ℝ × ℚ × ℝ) (i : ℕ) : Option ℝ × ℚ × ℝ :=
  match sampleData env p epoch i with
  | none => acc
  | some (d, current, spd) =>
    match acc with
    | (none, _, _) => (some d, current, spd)
    | (some m, t, s) => if d < m then (some d, current, spd) else (some m, t, s)

/-- The whole sampling loop of `find_closest_approach` over the offsets
`np.linspace(0, days, days + 1)`, i.e. the integer days 0..days, starting
from the accumulator (inf, start_time, 0.0). -/
noncomputable def caFold (env : Env) (p : PropFun) (epoch : ℚ) (days : ℕ) :
    Option ℝ × ℚ × ℝ :=
  (List.range (days + 1)).foldl (caStep env p epoch) (none, epoch, 0)

/-- Embedding of `orbit.find_closest_approach`: run the sampling loop; if
the minimum is still infinite afterwards the `RuntimeError` becomes
`propagationExhausted`, else return (time, distance, speed). -/
noncomputable def find_closest_approach (env : Env) (p : PropFun) (epoch : ℚ)
    (days : ℕ) : Except OrbitError CAResult :=
  match caFold env p epoch days with
  | (none, _, _) => .error .propagationExhausted
  | (some m, t, s) => .ok ⟨t, m, s⟩

/-- Serializable orbital-element record (`schemas.OrbitElements`). -/
structure OrbitElements where
  semi_major_axis_au : ℝ
  eccentricity : ℝ
  inclination_deg : ℝ
  raan_deg : ℝ
  arg_periapsis_deg : ℝ
  perihelion_time : ℚ

/-- Element extraction performed by the `/compute` endpoint (main.py
lines 239-246): the classical elements poliastro computes from the state
vector via the standard two-body relations (rv2coe), converted to the
response units, and — verbatim from the source — `perihelion_time`
set to `orbit.epoch.to_datetime()`, the state vector's epoch itself. -/
noncomputable def elementsOf (s : StateVector) : OrbitElements :=
  let r := s.pos
  let v := s.vel
  let h := cross3 r v
  let nvec := cross3 ⟨0, 0, 1⟩ h
  let rmag := norm3 r
  let evec := vsub (smul (1 / s.mu) (cross3 v h)) (smul (1 / rmag) r)
  let ecc := norm3 evec
  let a := 1 / (2 / rmag - dot3 v v / s.mu)
  let inc := Real.arccos (h.z / norm3 h)
  let raan :=
    if 0 ≤ nvec.y then Real.arccos (nvec.x / norm3 nvec)
    else 2 * Real.pi - Real.arccos (nvec.x / norm3 nvec)
  let argp :=
    if 0 ≤ evec.z then Real.arccos (dot3 nvec evec / (norm3 nvec * ecc))
    else 2 * Real.pi - Real.arccos (dot3 nvec evec / (norm3 nvec * ecc))
  { semi_major_axis_au := a / AU_KM
    eccentricity := ecc
    inclination_deg := inc * (180 / Real.pi)
    raan_deg := raan * (180 / Real.pi)
    arg_periapsis_deg := argp * (180 / Real.pi)
    perihelion_time := s.epoch }

/-- Modelled from the spec (4.3): the time of periapsis passage derived
from the elapsed eccentric anomaly at the epoch, converted back to an
absolute time using the orbital period.  (The repository never performs
this conversion; this definition states what the spec asks for, to be
compared with the reported `perihelion_time`.)  Eccentric anomaly from
cos E = (1 - |r|/a)/e with the half-plane resolved by the sign of r·v;
mean anomaly M = E - e sin E; mean motion n = sqrt(mu/a^3);
t_p = epoch - M/n. -/
noncomputable def periapsisTimeSpec (s : StateVector) : ℝ :=
  let r := s.pos
  let v := s.vel
  let h := cross3 r v
  let rmag := norm3 r
  let evec := vsub (smul (1 / s.mu) (cross3 v h)) (smul (1 / rmag) r)
  let e := norm3 evec
  let a := 1 / (2 / rmag - dot3 v v / s.mu)
  let cosE := (1 - rmag / a) / e
  let E := if 0 ≤ dot3 r v then Real.arccos cosE else 2 * Real.pi - Real.arccos cosE
  let M := E - e * Real.sin E
  let n := Real.sqrt (s.mu / a ^ 3)
  (s.epoch : ℝ) - M / n

/-- Response of the `/compute` endpoint (`schemas.ComputeResponse`):
elements, closest approach, and the ids of the observations used. -/
structure ComputeResponse where
  orbit : OrbitElements
  closest_approach : CAResult
  observation_ids : List ℕ

/-- Embedding of the `/compute` endpoint `main.compute_orbit`: the DB query
returns all observations ordered by `observation_time`; fewer than 5 is
rejected (HTTP 400 "need at least 5 observations", the taxonomy's
`InsufficientData`); then `derive_orbit` and `find_closest_approach` run,
any of their errors propagating to the caller (the endpoint maps them to
HTTP 500). -/
noncomputable def compute_orbit (env : Env) (p : PropFun) (days : ℕ)
    (observations : List Observation) : Except OrbitError ComputeResponse :=
  let obs := sortObs observations
  if obs.length < 5 then .error .insufficientData
  else
    match derive_orbit env obs with
    | .error e => .error e
    | .ok orbit =>
      match find_closest_approach env p orbit.epoch days with
      | .error e => .error e
      | .ok ca => .ok ⟨elementsOf orbit, ca, obs.map (fun o => o.id)⟩

/-- `orbit_calc.AU_TO_KM` (note: orbit_calc.py uses its own, coarser value
of the astronomical unit). -/
noncomputable def AU_TO_KM : ℝ := 1.496e8

/-- `orbit_calc.observations_to_vectors`: unit line-of-sight vectors (same
spherical-to-cartesian conversion, RA in hours as an hour angle) and the
observation times, in the given order (no sorting in orbit_calc.py).
Its SkyCoord construction, like the orbit.py builder's, raises for a
declination outside [-90, 90]; the upstream ObservationCreate schema
enforces that range before an observation is stored, and this conversion
is modelled on such in-domain declinations, where it is total. -/
noncomputable def observations_to_vectors (observations : List Observation) :
    List Vec3 × List ℚ :=
  (observations.map (fun obs =>
      let ra := (obs.ra_hours : ℝ) * (Real.pi / 12)
      let dec := (obs.dec_degrees : ℝ) * (Real.pi / 180)
      ⟨Real.cos dec * Real.cos ra, Real.cos dec * Real.sin ra, Real.sin dec⟩),
   observations.map (fun obs => obs.observation_time))

/-- np.max over a nonempty array, as a fold (head as the start value). -/
noncomputable def npMax (l : List ℝ) : ℝ := l.foldl max (l.headD 0)

/-- np.min over a nonempty array, as a fold (head as the start value). -/
noncomputable def npMin (l : List ℝ) : ℝ := l.foldl min (l.headD 0)

/-- Result dictionary of `orbit_calc.simple_orbit_determination`. -/
structure SodResult where
  semi_major_axis_au : ℝ
  eccentricity : ℝ
  inclination_deg : ℝ
  raan_deg : ℝ
  arg_periapsis_deg : ℝ
  perihelion_time : ℚ
  comet_positions : List Vec3
  obs_times : List ℚ

/-- Embedding of `orbit_calc.simple_orbit_determination`, the statistical
variant: every observation is placed at an assumed 3 AU from Earth, the
semi-major axis is the mean barycentric distance, the eccentricity is the
normalized spread of distances clamped to [0.1, 0.95], the inclination
comes from the normal of the first three positions, RAAN and the argument
of periapsis are `np.random.uniform(0, 360)` draws — modelled by the
explicit parameters `raanRand` and `argpRand` — and the perihelion time is
the first observation's timestamp.  The source indexes `obs_times[0]` and
`comet_positions[0..2]` directly, `headD`/`getD` stand in for those
in-range accesses. -/
noncomputable def simple_orbit_determination (env : Env) (raanRand argpRand : ℝ)
    (observations : List Observation) : SodResult :=
  let dirTimes := observations_to_vectors observations
  let direction_vectors := dirTimes.1
  let obs_times := dirTimes.2
  let earth_positions := obs_times.map (fun (t : ℚ) => env.earthPos (t : ℝ))
  let estimated_distance_km := 3 * AU_TO_KM
  let comet_positions := List.zipWith
    (fun e d => vadd e (smul estimated_distance_km d)) earth_positions direction_vectors
  let distances := comet_positions.map norm3
  let a_km := distances.sum / (distances.length : ℝ)
  let a_au := a_km / AU_TO_KM
  let max_dist := npMax distances
  let min_dist := npMin distances
  let e0 := if 0 < max_dist + min_dist then (max_dist - min_dist) / (max_dist + min_dist)
    else 0.5
  let e := min (max e0 0.1) 0.95
  let normal :=
    if 3 ≤ comet_positions.length then
      let p0 := comet_positions.getD 0 ⟨0, 0, 0⟩
      let v1 := vsub (comet_positions.getD 1 ⟨0, 0, 0⟩) p0
      let v2 := vsub (comet_positions.getD 2 ⟨0, 0, 0⟩) p0
      let nv := cross3 v1 v2
      smul (1 / norm3 nv) nv
    else (⟨0, 0, 1⟩ : Vec3)
  let cos_inc := dot3 normal ⟨0, 0, 1⟩
  let inc_deg := Real.arccos (max (-1) (min cos_inc 1)) * (180 / Real.pi)
  { semi_major_axis_au := a_au
    eccentricity := e
    inclination_deg := inc_deg
    raan_deg := raanRand
    arg_periapsis_deg := argpRand
    perihelion_time := obs_times.headD 0
    comet_positions := comet_positions
    obs_times := obs_times }

/-- scipy.optimize.minimize_scalar with method="bounded", abstracted to a
function returning the minimizing abscissa for an objective over an
interval; the source then reads `result.x` and `result.fun`, the latter
being the objective evaluated at `result.x`. -/
structure Minimizer where
  argmin : (ℝ → ℝ) → ℝ → ℝ → ℝ

/-- The objective `distance_to_earth` inside
`orbit_calc.find_closest_approach_simple`: a circular-ish in-plane
propagation via a simplified Kepler third law, against the ephemeris
Earth position at the absolute time. -/
noncomputable def distance_to_earth (env : Env) (a_au e : ℝ) (epoch : ℚ)
    (days_offset : ℝ) : ℝ :=
  let t : ℝ := (epoch : ℝ) + days_offset * (daySeconds : ℝ)
  let angle := 2 * Real.pi * days_offset / (365.25 * a_au ^ (1.5 : ℝ))
  let r := a_au * AU_TO_KM * (1 - e * e) / (1 + e * Real.cos angle)
  let comet_pos : Vec3 := ⟨r * Real.cos angle, r * Real.sin angle, 0⟩
  norm3 (vsub comet_pos (env.earthPos t))

/-- Embedding of `orbit_calc.find_closest_approach_simple`: bounded scalar
minimization of `distance_to_earth` over [0, search_days]; returns
(closest time in seconds, minimum distance km, relative speed km/s), the
speed from vis-viva at the closest distance against a fixed 30 km/s
Earth speed. -/
noncomputable def find_closest_approach_simple (env : Env) (mz : Minimizer)
    (od : SodResult) (search_days : ℕ) : ℝ × ℝ × ℝ :=
  let a_au := od.semi_major_axis_au
  let e := od.eccentricity
  let epoch := od.obs_times.headD 0
  let f := distance_to_earth env a_au e epoch
  let closest_day := mz.argmin f 0 (search_days : ℝ)
  let min_distance_km := f closest_day
  let closest_time := (epoch : ℝ) + closest_day * (daySeconds : ℝ)
  let v_comet :=
    if 0 < min_distance_km then
      Real.sqrt (SUN_MU * (2 / min_distance_km - 1 / (a_au * AU_TO_KM)))
    else 30.0
  let relative_velocity := |v_comet - 30.0|
  (closest_time, min_distance_km, relative_velocity)

/-- Response of `orbit_calc.compute_orbit_from_observations`; its closest
approach carries a real-valued time since the optimizer returns fractional
days. -/
structure CometComputeResponse where
  orbit : OrbitElements
  closest_approach : ℝ × ℝ × ℝ
  observation_ids : List ℕ

/-- Embedding of `orbit_calc.compute_orbit_from_observations`: rejects
fewer than 5 observations (`ValueError("Need at least 5 observations")`),
then packages `simple_orbit_determination` and
`find_closest_approach_simple` (default search window 730 days). -/
noncomputable def compute_orbit_from_observations (env : Env) (mz : Minimizer)
    (raanRand argpRand : ℝ) (observations : List Observation) :
    Except OrbitError CometComputeResponse :=
  if observations.length < 5 then .error .insufficientData
  else
    let orbit_data := simple_orbit_determination env raanRand argpRand observations
    let orbit_elements : OrbitElements :=
      ⟨orbit_data.semi_major_axis_au, orbit_data.eccentricity,
       orbit_data.inclination_deg, orbit_data.raan_deg,
       orbit_data.arg_periapsis_deg, orbit_data.perihelion_time⟩
    let ca := find_closest_approach_simple env mz orbit_data 730
    .ok ⟨orbit_elements, ca, observations.map (fun o => o.id)⟩

/-- Modelled from the spec (4.1): the Directional Vector Builder "fails
with InvalidAngle if RA/Dec fall outside their domains" (RA hours in
[0, 24), Dec degrees in [-90, 90]).  The source checks only the
declination (astropy's Latitude); this definition follows the spec's
words — both domains checked — to be compared with
`observation_to_heliocentric_vector`. -/
noncomputable def heliocentric_vector_checked (env : Env) (obs : Observation)
    (distance_au : ℝ) : Except OrbitError (Vec3 × ℚ) :=
  if obs.ra_hours < 0 ∨ 24 ≤ obs.ra_hours ∨ obs.dec_degrees < -90 ∨ 90 < obs.dec_degrees
  then .error .invalidAngle
  else .ok (heliocentric_conversion env obs distance_au)

/-! Concrete inputs used by witnesses and counterexamples. -/

/-- Ephemeris with Earth fixed at the origin. -/
def envX : Env := ⟨fun _ => ⟨0, 0, 0⟩, fun _ => ⟨0, 0, 0⟩⟩

/-- Propagation model whose every attempt succeeds at a fixed state. -/
noncomputable def pW : PropFun := fun _ _ => some (⟨3, 4, 0⟩, ⟨0, 0, 0⟩)

/-- A trivial bounded minimizer model (always returns the left endpoint). -/
def mzX : Minimizer := ⟨fun _ lo _ => lo⟩

/-! Helper lemmas. -/

lemma sortObs_length (l : List Observation) : (sortObs l).length = l.length :=
  List.length_insertionSort _ l

lemma sortObs_mem {l : List Observation} {o : Observation} (h : o ∈ sortObs l) : o ∈ l :=
  (List.perm_insertionSort _ l).mem_iff.mp h

lemma sortObs_mem_of_mem {l : List Observation} {o : Observation} (h : o ∈ l) :
    o ∈ sortObs l :=
  (List.perm_insertionSort _ l).mem_iff.mpr h

/-- The builder's only failure is the declination's invalidAngle. -/
lemma builder_error {env : Env} {obs : Observation} {d : ℝ} {e : OrbitError}
    (h : observation_to_heliocentric_vector env obs d = .error e) : e = .invalidAngle := by
  by_cases hc : obs.dec_degrees < -90 ∨ 90 < obs.dec_degrees
  · simp only [observation_to_heliocentric_vector, if_pos hc, Except.error.injEq] at h
    exact h.symm
  · simp only [observation_to_heliocentric_vector, if_neg hc] at h
    exact Except.noConfusion h

/-- The vector-building loop's only failure is the builder's invalidAngle. -/
lemma buildVectors_error {env : Env} :
    ∀ (l : List Observation) (idx : ℕ) (e : OrbitError),
      buildVectors env idx l = .error e → e = .invalidAngle := by
  intro l
  induction l with
  | nil =>
    intro idx e h
    simp only [buildVectors] at h
    exact Except.noConfusion h
  | cons o rest ih =>
    intro idx e h
    simp only [buildVectors] at h
    cases hb : observation_to_heliocentric_vector env o (0.8 + 0.02 * (idx : ℝ)) with
    | error e2 =>
      simp only [hb, Except.error.injEq] at h
      rw [← h]
      exact builder_error hb
    | ok rv =>
      simp only [hb] at h
      cases hrec : buildVectors env (idx + 1) rest with
      | error e2 =>
        simp only [hrec, Except.error.injEq] at h
        rw [← h]
        exact ih (idx + 1) e2 hrec
      | ok vs =>
        simp only [hrec] at h
        exact Except.noConfusion h

/-- With every declination in [-90, 90] the vector-building loop
succeeds. -/
lemma buildVectors_ok (env : Env) (l : List Observation)
    (hdec : ∀ o ∈ l, -90 ≤ o.dec_degrees ∧ o.dec_degrees ≤ 90) :
    ∀ idx, ∃ vs, buildVectors env idx l = .ok vs := by
  induction l with
  | nil => exact fun idx => ⟨[], rfl⟩
  | cons o rest ih =>
    intro idx
    have ho := hdec o (List.mem_cons_self o rest)
    have hvalid : ¬ (o.dec_degrees < -90 ∨ 90 < o.dec_degrees) := by
      push_neg
      exact ho
    obtain ⟨vs, hvs⟩ := ih (fun x hx => hdec x (List.mem_cons_of_mem o hx)) (idx + 1)
    refine ⟨(heliocentric_conversion env o (0.8 + 0.02 * (idx : ℝ))).1 :: vs, ?_⟩
    simp only [buildVectors, observation_to_heliocentric_vector, if_neg hvalid, hvs]

/-- A sum of squares of rationals vanishes exactly when every entry
does. -/
lemma sum_sq_zero_iff (l : List ℚ) :
    (l.map (fun t => t * t)).sum = 0 ↔ ∀ x ∈ l, x = 0 := by
  induction l with
  | nil => simp
  | cons a rest ih =>
    simp only [List.map_cons, List.sum_cons]
    constructor
    · intro h
      have hrest : 0 ≤ (rest.map (fun t => t * t)).sum := by
        apply List.sum_nonneg
        intro x hx
        obtain ⟨t, _, rfl⟩ := List.mem_map.mp hx
        exact mul_self_nonneg t
      have ha2 : 0 ≤ a * a := mul_self_nonneg a
      have ha : a * a = 0 := by linarith
      have hr : (rest.map (fun t => t * t)).sum = 0 := by linarith
      intro x hx
      rcases List.mem_cons.mp hx with rfl | hx2
      · exact mul_self_eq_zero.mp ha
      · exact ih.mp hr x hx2
    · intro h
      have ha : a = 0 := h a (List.mem_cons_self a rest)
      have hr : (rest.map (fun t => t * t)).sum = 0 :=
        ih.mpr (fun x hx => h x (List.mem_cons_of_mem a hx))
      simp [ha, hr]

/-- With 3 or more observations, derive_orbit can fail only on a bad
declination (invalidAngle) or a degenerate fit — never with
insufficientData. -/
lemma derive_orbit_ge3_not_insufficient (env : Env) (obs : List Observation)
    (h3 : 3 ≤ obs.length) :
    derive_orbit env obs ≠ .error .insufficientData := by
  have hlen := sortObs_length obs
  have hnot : ¬ (sortObs obs).length < 3 := by omega
  intro hc
  simp only [derive_orbit, if_neg hnot] at hc
  cases hbv : buildVectors env 0 (sortObs obs) with
  | error e =>
    simp only [hbv, Except.error.injEq] at hc
    have := buildVectors_error (sortObs obs) 0 e hbv
    rw [hc] at this
    exact OrbitError.noConfusion this
  | ok vs =>
    simp only [hbv] at hc
    by_cases hcond : ((timeSeconds (sortObs obs)).map (fun t => t * t)).sum = 0
    · simp only [polyfit1, if_pos hcond, Except.error.injEq] at hc
      exact OrbitError.noConfusion hc
    · simp only [polyfit1, if_neg hcond] at hc
      exact Except.noConfusion hc

/-! C8. -/

/-- C8: `derive_orbit` fails with InsufficientData exactly when given fewer
than 3 observations; with 3 or more it never produces that error. -/
theorem derive_orbit_insufficient_iff (env : Env) (obs : List Observation) :
    derive_orbit env obs = .error .insufficientData ↔ obs.length < 3 := by
  have hlen : (sortObs obs).length = obs.length := sortObs_length obs
  by_cases h : (sortObs obs).length < 3
  · constructor
    · intro _
      omega
    · intro _
      simp only [derive_orbit, if_pos h]
  · constructor
    · intro hc
      exact absurd hc (derive_orbit_ge3_not_insufficient env obs (by omega))
    · intro hc
      omega

/-! C1. -/

/-- Observations for the even-count counterexample: four distinct
timestamps 0, 1, 2, 3 (already time-ordered). -/
def obsC1 : List Observation :=
  [⟨1, 1, 1, 0⟩, ⟨2, 1, 1, 1⟩, ⟨3, 1, 1, 2⟩, ⟨4, 1, 1, 3⟩]

/-- C1 counterexample: with 4 observations at times 0, 1, 2, 3 the state
vector's epoch is the timestamp of index 2 = 4 // 2 — the LATER of the two
middle indices — namely 2, not the earlier middle timestamp 1 the claim
requires. -/
theorem derive_orbit_epoch_even_counterexample :
    Except.map StateVector.epoch (derive_orbit envX obsC1) = .ok 2 ∧ (2 : ℚ) ≠ 1 := by
  refine ⟨?_, by norm_num⟩
  have hnot : ¬ (sortObs obsC1).length < 3 := by decide
  obtain ⟨vs, hbv⟩ := buildVectors_ok envX (sortObs obsC1) (by decide) 0
  have hts : timeSeconds (sortObs obsC1) = [(0 : ℚ) - 0, 1 - 0, 2 - 0, 3 - 0] := rfl
  have hcond : ¬ ((timeSeconds (sortObs obsC1)).map (fun t => t * t)).sum = 0 := by
    rw [hts]
    norm_num
  simp only [derive_orbit, if_neg hnot, hbv, polyfit1, if_neg hcond, Except.map,
    Except.ok.injEq]
  decide

/-- C1 (amended): for at least 3 schema-valid observations (declinations
within [-90, 90]) whose timestamps are not all identical, derive_orbit
succeeds and the epoch is the time-sorted timestamp at index
`length / 2`; for even counts this is the later of the two middle
indices. -/
theorem derive_orbit_epoch_mid (env : Env) (obs : List Observation)
    (h3 : 3 ≤ obs.length)
    (hdec : ∀ o ∈ obs, -90 ≤ o.dec_degrees ∧ o.dec_degrees ≤ 90)
    (hne : ∃ o1, o1 ∈ obs ∧ ∃ o2, o2 ∈ obs ∧
      o1.observation_time ≠ o2.observation_time) :
    ∃ s, derive_orbit env obs = .ok s ∧
      s.epoch = (obsTimes (sortObs obs)).getD (obs.length / 2) 0 := by
  have hlen : (sortObs obs).length = obs.length := sortObs_length obs
  have hnot : ¬ (sortObs obs).length < 3 := by omega
  obtain ⟨vs, hbv⟩ :=
    buildVectors_ok env (sortObs obs) (fun o ho => hdec o (sortObs_mem ho)) 0
  have hcond : ¬ ((timeSeconds (sortObs obs)).map (fun t => t * t)).sum = 0 := by
    intro hsum
    have hz : ∀ x ∈ timeSeconds (sortObs obs), x = 0 := (sum_sq_zero_iff _).mp hsum
    have hall : ∀ u ∈ obsTimes (sortObs obs), u = (obsTimes (sortObs obs)).headD 0 := by
      intro u hu
      have hmem : u - (obsTimes (sortObs obs)).headD 0 ∈ timeSeconds (sortObs obs) :=
        List.mem_map_of_mem _ hu
      have := hz _ hmem
      linarith [this]
    obtain ⟨o1, ho1, o2, ho2, hneq⟩ := hne
    have h1 : o1.observation_time ∈ obsTimes (sortObs obs) :=
      List.mem_map_of_mem _ (sortObs_mem_of_mem ho1)
    have h2 : o2.observation_time ∈ obsTimes (sortObs obs) :=
      List.mem_map_of_mem _ (sortObs_mem_of_mem ho2)
    exact hneq ((hall _ h1).trans (hall _ h2).symm)
  cases hres : derive_orbit env obs with
  | error e =>
    exfalso
    simp only [derive_orbit, if_neg hnot, hbv, polyfit1, if_neg hcond] at hres
    exact Except.noConfusion hres
  | ok s =>
    refine ⟨s, rfl, ?_⟩
    simp only [derive_orbit, if_neg hnot, hbv, polyfit1, if_neg hcond,
      Except.ok.injEq] at hres
    rw [← hres]
    simp [hlen]

/-- Witness for C1's amended theorem at the concrete 4-observation input. -/
theorem derive_orbit_epoch_mid_witness :
    (3 ≤ obsC1.length ∧ (∀ o ∈ obsC1, -90 ≤ o.dec_degrees ∧ o.dec_degrees ≤ 90) ∧
      (∃ o1, o1 ∈ obsC1 ∧ ∃ o2, o2 ∈ obsC1 ∧
        o1.observation_time ≠ o2.observation_time)) ∧
    ∃ s, derive_orbit envX obsC1 = .ok s ∧
      s.epoch = (obsTimes (sortObs obsC1)).getD (obsC1.length / 2) 0 :=
  ⟨⟨by decide, by decide, ⟨⟨1, 1, 1, 0⟩, by decide, ⟨2, 1, 1, 1⟩, by decide, by decide⟩⟩,
   derive_orbit_epoch_mid envX obsC1 (by decide) (by decide)
     ⟨⟨1, 1, 1, 0⟩, by decide, ⟨2, 1, 1, 1⟩, by decide, by decide⟩⟩

/-! C5. -/

/-- Three observations sharing a timestamp of 0 (declinations in range). -/
def obsC5 : List Observation := [⟨1, 1, 1, 0⟩, ⟨2, 2, 1, 0⟩, ⟨3, 3, 1, 0⟩]

/-- C5: with at least 3 schema-valid observations all at the same
timestamp, the elapsed-seconds column is identically zero, np.polyfit's
scaled least squares fails (LinAlgError), and derive_orbit fails with the
taxonomy's DegenerateFit — the undefined slope is rejected, not silently
fitted. -/
theorem derive_orbit_degenerate_fit (env : Env) (obs : List Observation) (t : ℚ)
    (h3 : 3 ≤ obs.length)
    (hdec : ∀ o ∈ obs, -90 ≤ o.dec_degrees ∧ o.dec_degrees ≤ 90)
    (hall : ∀ o ∈ obs, o.observation_time = t) :
    derive_orbit env obs = .error .degenerateFit := by
  have hlen := sortObs_length obs
  have hnot : ¬ (sortObs obs).length < 3 := by omega
  obtain ⟨vs, hbv⟩ :=
    buildVectors_ok env (sortObs obs) (fun o ho => hdec o (sortObs_mem ho)) 0
  have hmem : ∀ u ∈ obsTimes (sortObs obs), u = t := by
    intro u hu
    obtain ⟨o, ho, rfl⟩ := List.mem_map.mp hu
    exact hall o (sortObs_mem ho)
  have hLne : obsTimes (sortObs obs) ≠ [] := by
    intro hnil
    have hl := congrArg List.length hnil
    simp only [obsTimes, List.length_map, hlen, List.length_nil] at hl
    omega
  have hheadD : (obsTimes (sortObs obs)).headD 0 = t := by
    cases hL : obsTimes (sortObs obs) with
    | nil => exact absurd hL hLne
    | cons a as =>
      have ha : a = t := hmem a (by rw [hL]; exact List.mem_cons_self a as)
      simp [ha]
  have hz : ∀ x ∈ timeSeconds (sortObs obs), x = 0 := by
    intro x hx
    obtain ⟨u, hu, rfl⟩ := List.mem_map.mp hx
    rw [hmem u hu, hheadD, sub_self]
  have hcond : ((timeSeconds (sortObs obs)).map (fun u => u * u)).sum = 0 :=
    (sum_sq_zero_iff _).mpr hz
  simp only [derive_orbit, if_neg hnot, hbv, polyfit1, if_pos hcond]

/-- Witness for C5 at the concrete identical-timestamp input. -/
theorem derive_orbit_degenerate_fit_witness :
    (3 ≤ obsC5.length ∧ (∀ o ∈ obsC5, -90 ≤ o.dec_degrees ∧ o.dec_degrees ≤ 90) ∧
      (∀ o ∈ obsC5, o.observation_time = 0)) ∧
    derive_orbit envX obsC5 = .error .degenerateFit :=
  ⟨⟨by decide, by decide, by decide⟩,
   derive_orbit_degenerate_fit envX obsC5 0 (by decide) (by decide) (by decide)⟩

/-! C7. -/

/-- C7: both compute entry points reject fewer than 5 observations with
InsufficientData, while `derive_orbit` itself never raises
InsufficientData at 3 or more — the orchestration threshold is strictly
stricter. -/
theorem compute_requires_five (env : Env) (p : PropFun) (mz : Minimizer)
    (r1 r2 : ℝ) (days : ℕ) (obs : List Observation) :
    (obs.length < 5 →
      compute_orbit env p days obs = .error .insufficientData ∧
      compute_orbit_from_observations env mz r1 r2 obs = .error .insufficientData)
    ∧ (3 ≤ obs.length → derive_orbit env obs ≠ .error .insufficientData) := by
  constructor
  · intro h5
    constructor
    · have h5s : (sortObs obs).length < 5 := by rw [sortObs_length]; exact h5
      simp only [compute_orbit, if_pos h5s]
    · simp only [compute_orbit_from_observations, if_pos h5]
  · exact derive_orbit_ge3_not_insufficient env obs

/-- Four observations, below the orchestration threshold but above the
estimator's. -/
def obsC7 : List Observation :=
  [⟨1, 1, 1, 0⟩, ⟨2, 1, 1, 1⟩, ⟨3, 1, 1, 2⟩, ⟨4, 1, 1, 3⟩]

/-- Witness for C7 at a concrete 4-observation input. -/
theorem compute_requires_five_witness :
    (obsC7.length < 5 ∧ compute_orbit envX pW 0 obsC7 = .error .insufficientData) ∧
    (3 ≤ obsC7.length ∧ derive_orbit envX obsC7 ≠ .error .insufficientData) :=
  ⟨⟨by decide, ((compute_requires_five envX pW mzX 0 0 0 obsC7).1 (by decide)).1⟩,
   ⟨by decide, (compute_requires_five envX pW mzX 0 0 0 obsC7).2 (by decide)⟩⟩

/-! C10. -/

/-- C10: the statistical determination's eccentricity is clamped to
[0.1, 0.95] for any at-least-3-observation input (hence never circular or
parabolic/hyperbolic), regardless of the observed positions. -/
theorem sod_eccentricity_clamped (env : Env) (r1 r2 : ℝ) (obs : List Observation)
    (h : 3 ≤ obs.length) :
    0.1 ≤ (simple_orbit_determination env r1 r2 obs).eccentricity ∧
    (simple_orbit_determination env r1 r2 obs).eccentricity ≤ 0.95 ∧
    (simple_orbit_determination env r1 r2 obs).eccentricity ≠ 0 ∧
    (simple_orbit_determination env r1 r2 obs).eccentricity < 1 := by
  have h1 : (0.1 : ℝ) ≤ (simple_orbit_determination env r1 r2 obs).eccentricity := by
    show (0.1 : ℝ) ≤ min (max _ 0.1) 0.95
    exact le_min (le_max_right _ _) (by norm_num)
  have h2 : (simple_orbit_determination env r1 r2 obs).eccentricity ≤ 0.95 := by
    show min (max _ 0.1) 0.95 ≤ (0.95 : ℝ)
    exact min_le_right _ _
  refine ⟨h1, h2, ?_, ?_⟩
  · exact ne_of_gt (lt_of_lt_of_le (by norm_num) h1)
  · exact lt_of_le_of_lt h2 (by norm_num)

/-- Three arbitrary observations for the eccentricity-clamp witness. -/
def obsC10 : List Observation :=
  [⟨1, 5, 10, 0⟩, ⟨2, 6, 11, 100⟩, ⟨3, 7, 12, 200⟩]

/-- Witness for C10 at a concrete 3-observation input. -/
theorem sod_eccentricity_clamped_witness :
    3 ≤ obsC10.length ∧
    (0.1 ≤ (simple_orbit_determination envX 0 0 obsC10).eccentricity ∧
      (simple_orbit_determination envX 0 0 obsC10).eccentricity ≤ 0.95 ∧
      (simple_orbit_determination envX 0 0 obsC10).eccentricity ≠ 0 ∧
      (simple_orbit_determination envX 0 0 obsC10).eccentricity < 1) :=
  ⟨by decide, sod_eccentricity_clamped envX 0 0 obsC10 (by decide)⟩

/-! C3. -/

/-- A propagation model whose default attempt fails while every rtol retry
and the cowell attempt succeed, at different states. -/
noncomputable def pC3 : PropFun := fun _ a =>
  match a with
  | .default => none
  | .rtol _ => some (⟨0, 0, 0⟩, ⟨0, 0, 0⟩)
  | .cowell => some (⟨1, 0, 0⟩, ⟨0, 0, 0⟩)

/-- C3 counterexample: when the default attempt fails but the first rtol
retry succeeds, the source still attempts the cowell integration and its
(different) result wins — the cowell stage is NOT reached only on
continued failure of all tolerance retries. -/
theorem propagation_ladder_cowell_counterexample :
    pC3 0 .default = none ∧
    tryRtols pC3 0 rtolList = some (⟨0, 0, 0⟩, ⟨0, 0, 0⟩) ∧
    pC3 0 .cowell = some (⟨1, 0, 0⟩, ⟨0, 0, 0⟩) ∧
    propagateLadder pC3 0 = some (⟨1, 0, 0⟩, ⟨0, 0, 0⟩) ∧
    propagateLadderSpec pC3 0 = some (⟨0, 0, 0⟩, ⟨0, 0, 0⟩) ∧
    ((⟨1, 0, 0⟩, ⟨0, 0, 0⟩) : Vec3 × Vec3) ≠ (⟨0, 0, 0⟩, ⟨0, 0, 0⟩) := by
  refine ⟨rfl, rfl, rfl, rfl, rfl, ?_⟩
  intro h
  have hx := congrArg (fun q => q.1.x) h
  norm_num at hx

/-- C3 (amended): the default attempt is decisive when it succeeds; on its
failure the rtol retries run in their listed order until one succeeds, but
the cowell attempt then runs unconditionally and, when it succeeds, its
result overwrites any successful rtol retry; the offset is skipped (ladder
result `none`) exactly when the default, all rtol retries and the cowell
attempt all fail. -/
theorem propagation_ladder_order (p : PropFun) (i : ℕ) :
    (∀ s, p i .default = some s → propagateLadder p i = some s)
    ∧ (∀ s, p i (.rtol (1e-6 : ℝ)) = some s → tryRtols p i rtolList = some s)
    ∧ (p i .default = none → ∀ c, p i .cowell = some c → propagateLadder p i = some c)
    ∧ (p i .default = none → p i .cowell = none →
        propagateLadder p i = tryRtols p i rtolList)
    ∧ (propagateLadder p i = none ↔
        p i .default = none ∧ tryRtols p i rtolList = none ∧ p i .cowell = none) := by
  refine ⟨?_, ?_, ?_, ?_, ?_⟩
  · intro s hs
    simp [propagateLadder, hs]
  · intro s hs
    simp [tryRtols, rtolList, hs]
  · intro hd c hc
    simp [propagateLadder, hd, hc]
  · intro hd hc
    simp [propagateLadder, hd, hc]
  · cases hd : p i .default with
    | some s => simp [propagateLadder, hd]
    | none =>
      cases hc : p i .cowell with
      | some c => simp [propagateLadder, hd, hc]
      | none =>
        cases hr : tryRtols p i rtolList with
        | some r => simp [propagateLadder, hd, hc, hr]
        | none => simp [propagateLadder, hd, hc, hr]

/-- Witness for C3's amended theorem on a model where only the default
attempt succeeds. -/
theorem propagation_ladder_order_witness :
    pW 0 .default = some (⟨3, 4, 0⟩, ⟨0, 0, 0⟩) ∧
    propagateLadder pW 0 = some (⟨3, 4, 0⟩, ⟨0, 0, 0⟩) :=
  ⟨rfl, (propagation_ladder_order pW 0).1 _ rfl⟩

/-! C6. -/

/-- An observation whose right ascension (25 h) is outside [0, 24) while
its declination (10 deg) is in range. -/
def obsBadRA : Observation := ⟨9, 25, 10, 4⟩

/-- Two in-range companions (distinct timestamps) so that the estimator
runs to completion. -/
def obsC6 : List Observation := [obsBadRA, ⟨10, 1, 1, 5⟩, ⟨11, 2, 1, 6⟩]

/-- C6 counterexample: an out-of-domain right ascension (25 hours) is NOT
rejected — the builder converts it (astropy wraps the Longitude) and
`derive_orbit` succeeds on the whole sequence, whereas the spec-modelled
checked builder fails with InvalidAngle on that observation. -/
theorem invalid_angle_counterexample :
    (24 ≤ obsBadRA.ra_hours) ∧
    (observation_to_heliocentric_vector envX obsBadRA 0.8).isOk = true ∧
    (derive_orbit envX obsC6).isOk = true ∧
    heliocentric_vector_checked envX obsBadRA 0.8 = .error .invalidAngle := by
  refine ⟨by decide, rfl, ?_, ?_⟩
  · have hnot : ¬ (sortObs obsC6).length < 3 := by decide
    obtain ⟨vs, hbv⟩ := buildVectors_ok envX (sortObs obsC6) (by decide) 0
    have hts : timeSeconds (sortObs obsC6) = [(4 : ℚ) - 4, 5 - 4, 6 - 4] := rfl
    have hcond : ¬ ((timeSeconds (sortObs obsC6)).map (fun t => t * t)).sum = 0 := by
      rw [hts]
      norm_num
    simp only [derive_orbit, if_neg hnot, hbv, polyfit1, if_neg hcond]
    rfl
  · rw [heliocentric_vector_checked, if_pos]
    exact Or.inr (Or.inl (by decide))

/-- C6 (amended): the builder validates only the declination — it fails
(astropy Latitude's ValueError, the taxonomy's InvalidAngle) exactly for a
declination outside [-90, 90], while the right ascension is never
validated: any RA value is accepted and wrapped periodically. -/
theorem builder_invalid_angle_iff (env : Env) (obs : Observation)
    (distance_au : ℝ) :
    observation_to_heliocentric_vector env obs distance_au = .error .invalidAngle ↔
      (obs.dec_degrees < -90 ∨ 90 < obs.dec_degrees) := by
  by_cases h : obs.dec_degrees < -90 ∨ 90 < obs.dec_degrees
  · constructor
    · intro _
      exact h
    · intro _
      simp only [observation_to_heliocentric_vector, if_pos h]
  · simp only [observation_to_heliocentric_vector, if_neg h]
    constructor
    · intro hc
      exact Except.noConfusion hc
    · intro hc
      exact absurd hc h

/-! C2 and C9: the sampling loop's invariant. -/

lemma sampleData_time {env : Env} {p : PropFun} {epoch : ℚ} {i : ℕ} {d : ℝ} {t : ℚ} {s : ℝ}
    (h : sampleData env p epoch i = some (d, t, s)) :
    t = epoch + (i : ℚ) * daySeconds := by
  cases hl : propagateLadder p i with
  | none =>
    simp only [sampleData, hl] at h
    exact Option.noConfusion h
  | some rv =>
    obtain ⟨r, v⟩ := rv
    simp only [sampleData, hl, Option.some.injEq, Prod.mk.injEq] at h
    exact h.2.1.symm

lemma sampleData_none_iff (env : Env) (p : PropFun) (epoch : ℚ) (i : ℕ) :
    sampleData env p epoch i = none ↔ propagateLadder p i = none := by
  cases hl : propagateLadder p i with
  | none => simp [sampleData, hl]
  | some rv =>
    obtain ⟨r, v⟩ := rv
    simp [sampleData, hl]

/-- Invariant of the running-minimum loop: after processing offsets
0..days, either nothing was evaluated (accumulator untouched) and every
sample failed, or the accumulator holds a sample (m, t, s) of some offset
i that is minimal among all evaluated samples, and is the earliest offset
attaining that minimum. -/
lemma caFold_inv (env : Env) (p : PropFun) (epoch : ℚ) (days : ℕ) :
    (caFold env p epoch days = (none, epoch, 0) ∧
      ∀ i, i ≤ days → sampleData env p epoch i = none)
    ∨ (∃ m t s i, caFold env p epoch days = (some m, t, s) ∧ i ≤ days ∧
        sampleData env p epoch i = some (m, t, s) ∧
        ∀ j, j ≤ days → ∀ d' t' s', sampleData env p epoch j = some (d', t', s') →
          m ≤ d' ∧ (d' ≤ m → t ≤ t')) := by
  induction days with
  | zero =>
    have h0 : caFold env p epoch 0 = caStep env p epoch (none, epoch, 0) 0 := rfl
    cases hs : sampleData env p epoch 0 with
    | none =>
      left
      constructor
      · rw [h0]; simp only [caStep, hs]
      · intro i hi
        have hi0 : i = 0 := by omega
        subst hi0
        exact hs
    | some dts =>
      obtain ⟨d, tc, sc⟩ := dts
      right
      refine ⟨d, tc, sc, 0, ?_, le_refl 0, hs, ?_⟩
      · rw [h0]; simp only [caStep, hs]
      · intro j hj d' t' s' hj'
        have hj0 : j = 0 := by omega
        subst hj0
        rw [hs] at hj'
        simp only [Option.some.injEq, Prod.mk.injEq] at hj'
        obtain ⟨h1, h2, _⟩ := hj'
        subst h1
        subst h2
        exact ⟨le_refl _, fun _ => le_refl _⟩
  | succ n ih =>
    have hstep : caFold env p epoch (n + 1) =
        caStep env p epoch (caFold env p epoch n) (n + 1) := by
      unfold caFold
      conv_lhs => rw [List.range_succ]
      rw [List.foldl_append]
      rfl
    cases hs : sampleData env p epoch (n + 1) with
    | none =>
      have hid : caStep env p epoch (caFold env p epoch n) (n + 1) =
          caFold env p epoch n := by
        simp only [caStep, hs]
      rcases ih with ⟨hA, hall⟩ | ⟨m, t, s, i, hA, hi, hsamp, hmin⟩
      · left
        refine ⟨by rw [hstep, hid, hA], ?_⟩
        intro i hi
        rcases Nat.lt_or_ge i (n + 1) with hlt | hge
        · exact hall i (by omega)
        · have : i = n + 1 := by omega
          subst this
          exact hs
      · right
        refine ⟨m, t, s, i, by rw [hstep, hid, hA], by omega, hsamp, ?_⟩
        intro j hj d' t' s' hj'
        rcases Nat.lt_or_ge j (n + 1) with hlt | hge
        · exact hmin j (by omega) d' t' s' hj'
        · have hj1 : j = n + 1 := by omega
          subst hj1
          rw [hs] at hj'
          exact Option.noConfusion hj'
    | some dts =>
      obtain ⟨d, tc, sc⟩ := dts
      have htc : tc = epoch + ((n + 1 : ℕ) : ℚ) * daySeconds := sampleData_time hs
      rcases ih with ⟨hA, hall⟩ | ⟨m, t, s, i, hA, hi, hsamp, hmin⟩
      · right
        have hA' : caFold env p epoch (n + 1) = (some d, tc, sc) := by
          rw [hstep, hA]
          simp only [caStep, hs]
        refine ⟨d, tc, sc, n + 1, hA', le_refl _, hs, ?_⟩
        intro j hj d' t' s' hj'
        rcases Nat.lt_or_ge j (n + 1) with hlt | hge
        · rw [hall j (by omega)] at hj'
          exact Option.noConfusion hj'
        · have hj1 : j = n + 1 := by omega
          subst hj1
          rw [hs] at hj'
          simp only [Option.some.injEq, Prod.mk.injEq] at hj'
          obtain ⟨h1, h2, _⟩ := hj'
          subst h1
          subst h2
          exact ⟨le_refl _, fun _ => le_refl _⟩
      · have hA' : caFold env p epoch (n + 1) =
            (if d < m then (some d, tc, sc) else (some m, t, s)) := by
          rw [hstep, hA]
          simp only [caStep, hs]
        by_cases hdm : d < m
        · right
          rw [if_pos hdm] at hA'
          refine ⟨d, tc, sc, n + 1, hA', le_refl _, hs, ?_⟩
          intro j hj d' t' s' hj'
          rcases Nat.lt_or_ge j (n + 1) with hlt | hge
          · have hold := hmin j (by omega) d' t' s' hj'
            refine ⟨le_of_lt (lt_of_lt_of_le hdm hold.1), ?_⟩
            intro hle
            exfalso
            have : m < m := lt_of_le_of_lt (le_trans hold.1 hle) hdm
            exact absurd this (lt_irrefl m)
          · have hj1 : j = n + 1 := by omega
            subst hj1
            rw [hs] at hj'
            simp only [Option.some.injEq, Prod.mk.injEq] at hj'
            obtain ⟨h1, h2, _⟩ := hj'
            subst h1
            subst h2
            exact ⟨le_refl _, fun _ => le_refl _⟩
        · right
          rw [if_neg hdm] at hA'
          have hmd : m ≤ d := not_lt.mp hdm
          refine ⟨m, t, s, i, hA', by omega, hsamp, ?_⟩
          intro j hj d' t' s' hj'
          rcases Nat.lt_or_ge j (n + 1) with hlt | hge
          · exact hmin j (by omega) d' t' s' hj'
          · have hj1 : j = n + 1 := by omega
            subst hj1
            rw [hs] at hj'
            simp only [Option.some.injEq, Prod.mk.injEq] at hj'
            obtain ⟨h1, h2, _⟩ := hj'
            subst h1
            refine ⟨hmd, fun _ => ?_⟩
            rw [← h2, htc, sampleData_time hsamp]
            have hcast : (i : ℚ) ≤ ((n + 1 : ℕ) : ℚ) := by
              exact_mod_cast (by omega : i ≤ n + 1)
            have hd0 : (0 : ℚ) ≤ daySeconds := by norm_num [daySeconds]
            have := mul_le_mul_of_nonneg_right hcast hd0
            linarith

/-! C9. -/

/-- C9: the search fails with PropagationExhausted exactly when the full
ladder fails at every sampled offset of the horizon; equivalently, one
successful offset suffices for a result. -/
theorem closest_approach_exhausted_iff (env : Env) (p : PropFun) (epoch : ℚ)
    (days : ℕ) :
    find_closest_approach env p epoch days = .error .propagationExhausted ↔
      ∀ i, i ≤ days → propagateLadder p i = none := by
  rcases caFold_inv env p epoch days with ⟨hA, hall⟩ | ⟨m, t, s, i, hA, hi, hsamp, _⟩
  · constructor
    · intro _ i hi
      exact (sampleData_none_iff env p epoch i).mp (hall i hi)
    · intro _
      simp only [find_closest_approach, hA]
  · constructor
    · intro hc
      exfalso
      simp only [find_closest_approach, hA] at hc
      exact Except.noConfusion hc
    · intro hforall
      exfalso
      have hnone := (sampleData_none_iff env p epoch i).mpr (hforall i hi)
      rw [hsamp] at hnone
      exact Option.noConfusion hnone

/-! C2. -/

/-- C2: a successful search returns exactly one of the evaluated samples
(so the speed is the one paired with the returned distance and time), its
distance is a lower bound of every successfully evaluated distance, among
equal minimal distances the earliest time wins, and the returned time lies
within [epoch, epoch + horizon]. -/
theorem find_closest_approach_min_spec (env : Env) (p : PropFun) (epoch : ℚ)
    (days : ℕ) (t : ℚ) (d s : ℝ)
    (h : find_closest_approach env p epoch days = .ok ⟨t, d, s⟩) :
    (∃ i, i ≤ days ∧ sampleData env p epoch i = some (d, t, s))
    ∧ (∀ j, j ≤ days → ∀ d' t' s', sampleData env p epoch j = some (d', t', s') → d ≤ d')
    ∧ (∀ j, j ≤ days → ∀ t' s', sampleData env p epoch j = some (d, t', s') → t ≤ t')
    ∧ epoch ≤ t ∧ t ≤ epoch + (days : ℚ) * daySeconds := by
  rcases caFold_inv env p epoch days with ⟨hA, _⟩ | ⟨m, t0, s0, i, hA, hi, hsamp, hmin⟩
  · exfalso
    simp only [find_closest_approach, hA] at h
    exact Except.noConfusion h
  · simp only [find_closest_approach, hA, Except.ok.injEq, CAResult.mk.injEq] at h
    obtain ⟨ht, hd, hsp⟩ := h
    subst ht
    subst hd
    subst hsp
    refine ⟨⟨i, hi, hsamp⟩, ?_, ?_, ?_, ?_⟩
    · intro j hj d' t' s' hj'
      exact (hmin j hj d' t' s' hj').1
    · intro j hj t' s' hj'
      exact (hmin j hj _ t' s' hj').2 (le_refl _)
    · rw [sampleData_time hsamp]
      have hd0 : (0 : ℚ) ≤ daySeconds := by norm_num [daySeconds]
      have := mul_nonneg (by positivity : (0 : ℚ) ≤ (i : ℚ)) hd0
      linarith
    · rw [sampleData_time hsamp]
      have hcast : (i : ℚ) ≤ (days : ℚ) := by exact_mod_cast hi
      have hd0 : (0 : ℚ) ≤ daySeconds := by norm_num [daySeconds]
      have := mul_le_mul_of_nonneg_right hcast hd0
      linarith

/-- The sample the all-success model pW produces at offset 0 of epoch 0
(the time is kept in the loop's unreduced form 0 + 0 * daySeconds). -/
noncomputable def wRes : CAResult :=
  ⟨0 + ((0 : ℕ) : ℚ) * daySeconds, norm3 (vsub ⟨3, 4, 0⟩ ⟨0, 0, 0⟩),
   norm3 (vsub ⟨0, 0, 0⟩ ⟨0, 0, 0⟩)⟩

/-- Witness for C2 on a one-sample search that succeeds at offset 0. -/
theorem find_closest_approach_min_spec_witness :
    find_closest_approach envX pW 0 0 = .ok wRes ∧
    ((0 : ℚ) ≤ wRes.time ∧ wRes.time ≤ 0 + ((0 : ℕ) : ℚ) * daySeconds) := by
  have h : find_closest_approach envX pW 0 0 = .ok wRes := rfl
  have big := find_closest_approach_min_spec envX pW 0 0 wRes.time wRes.distance
    wRes.relSpeed h
  exact ⟨h, big.2.2.2⟩

/-! C4. -/

/-- A bound state at apoapsis of an a = 2, e = 1/2, mu = 1 orbit, epoch 0:
position (3, 0, 0), velocity (0, sqrt(1/6), 0). -/
noncomputable def stateC4 : StateVector :=
  ⟨⟨3, 0, 0⟩, ⟨0, Real.sqrt (1 / 6), 0⟩, 0, 1⟩

/-- C4 counterexample: the reported perihelion time is the epoch verbatim,
but the anomaly-derived time of periapsis passage of the spec is
epoch - pi/sqrt(1/8) (the body sits at apoapsis, half a period after
periapsis), so the reported value differs from the spec's. -/
theorem perihelion_time_spec_counterexample :
    (elementsOf stateC4).perihelion_time = stateC4.epoch ∧
    ((elementsOf stateC4).perihelion_time : ℝ) ≠ periapsisTimeSpec stateC4 := by
  refine ⟨rfl, ?_⟩
  show ((0 : ℚ) : ℝ) ≠ periapsisTimeSpec stateC4
  have hnr : norm3 (⟨3, 0, 0⟩ : Vec3) = 3 := by
    rw [norm3, show dot3 (⟨3, 0, 0⟩ : Vec3) ⟨3, 0, 0⟩ = (3 : ℝ) ^ 2 by norm_num [dot3],
      Real.sqrt_sq (by norm_num : (0 : ℝ) ≤ 3)]
  have hσ : Real.sqrt ((1 : ℝ) / 6) * Real.sqrt ((1 : ℝ) / 6) = 1 / 6 :=
    Real.mul_self_sqrt (by norm_num)
  have hcrv : cross3 (⟨3, 0, 0⟩ : Vec3) ⟨0, Real.sqrt (1 / 6), 0⟩ =
      ⟨0, 0, 3 * Real.sqrt (1 / 6)⟩ := by
    simp only [cross3, Vec3.mk.injEq]
    norm_num
  have hcvh : cross3 (⟨0, Real.sqrt (1 / 6), 0⟩ : Vec3) ⟨0, 0, 3 * Real.sqrt (1 / 6)⟩ =
      ⟨1 / 2, 0, 0⟩ := by
    simp only [cross3, Vec3.mk.injEq]
    refine ⟨?_, by norm_num, by norm_num⟩
    linear_combination 3 * hσ
  have hevec : vsub (smul ((1 : ℝ) / 1) ⟨1 / 2, 0, 0⟩) (smul ((1 : ℝ) / 3) ⟨3, 0, 0⟩) =
      ⟨-(1 / 2), 0, 0⟩ := by
    simp only [vsub, smul, Vec3.mk.injEq]
    norm_num
  have hne : norm3 (⟨-(1 / 2), 0, 0⟩ : Vec3) = 1 / 2 := by
    rw [norm3,
      show dot3 (⟨-(1 / 2), 0, 0⟩ : Vec3) ⟨-(1 / 2), 0, 0⟩ = ((1 : ℝ) / 2) ^ 2 by
        norm_num [dot3],
      Real.sqrt_sq (by norm_num : (0 : ℝ) ≤ 1 / 2)]
  have hdvv : dot3 (⟨0, Real.sqrt (1 / 6), 0⟩ : Vec3) ⟨0, Real.sqrt (1 / 6), 0⟩ =
      1 / 6 := by
    simp only [dot3]
    linear_combination hσ
  have hdrv : dot3 (⟨3, 0, 0⟩ : Vec3) ⟨0, Real.sqrt (1 / 6), 0⟩ = 0 := by
    simp [dot3]
  have ha : (1 : ℝ) / (2 / 3 - 1 / 6 / 1) = 2 := by norm_num
  have hcos : ((1 : ℝ) - 3 / 2) / (1 / 2) = -1 := by norm_num
  simp only [periapsisTimeSpec, stateC4]
  rw [hcrv, hcvh, hnr, hevec, hne, hdvv, hdrv, ha, hcos,
    if_pos (le_refl (0 : ℝ)), Real.arccos_neg_one, Real.sin_pi, mul_zero, sub_zero]
  have hsq : (0 : ℝ) < Real.sqrt (1 / 2 ^ 3) := Real.sqrt_pos.mpr (by norm_num)
  have hpos : (0 : ℝ) < Real.pi / Real.sqrt (1 / 2 ^ 3) := div_pos Real.pi_pos hsq
  intro heq
  rw [Rat.cast_zero] at heq
  linarith

/-- C4 (amended): both code paths report a trivial perihelion time — the
`/compute` endpoint reports the state vector's epoch itself, and the
statistical variant reports the first observation's timestamp; neither
performs the anomaly-based conversion of the spec. -/
theorem perihelion_time_reported :
    (∀ s : StateVector, (elementsOf s).perihelion_time = s.epoch)
    ∧ (∀ (env : Env) (r1 r2 : ℝ) (o : Observation) (rest : List Observation),
        (simple_orbit_determination env r1 r2 (o :: rest)).perihelion_time =
          o.observation_time) :=
  ⟨fun _ => rfl, fun _ _ _ _ _ => rfl⟩

end CometOrbit
